import Mathlib

unseal Rat.mul Rat.inv Rat.add Rat.sub

/-!
Shallow embedding of the LED animation engine in
`src/makers-lab-demos/Christmas-lights.py`, together with proofs of the
spec's testable properties about it.

Modelling conventions:
* Python floats are modelled as exact rationals (`ℚ`); `int(x)` is
  truncation toward zero (`pyInt`); `x % 1.0` takes the sign of the
  divisor, i.e. `x - ⌊x⌋`.
* The per-frame random draws `urandom.getrandbits(8)` and
  `urandom.getrandbits(16)` are passed in explicitly as naturals
  `r8`, `r16`; the update functions are otherwise deterministic.
* Python list indexing raises `IndexError` out of bounds; the checked
  variant `triggerStepChecked` returns `none` on that error branch, the
  total variant `triggerStep` uses `List.getD`/`List.set` and is shown to
  agree with it whenever the arrays have the configured length.
* The float expression `u ** 1.5` (an irrational real power) is abstracted
  as a parameter `sh : ℚ → ℚ`; every theorem below holds for an arbitrary
  shaping function, hence in particular for the one the hardware computes.
* `time.ticks_ms`/`ticks_diff` are modelled as monotone integer
  milliseconds with exact subtraction.
-/

/-! ## Configuration constants (Christmas-lights.py lines 29-59) -/

def NUM_LEDS : ℕ := 200

def MODE1_BASE_V : ℚ := 6 / 100

def MODE1_SPARKLE_V : ℚ := 95 / 100

def MODE1_SPARKLE_STEPS : ℤ := 22

def MODE1_SPARKLE_PROB : ℕ := 40

def MODE3_BASE_V : ℚ := 1 / 100

def MODE3_TWINKLE_V : ℚ := 5 / 10

def MODE3_TWINKLE_STEPS : ℤ := 60

def MODE3_TWINKLE_PROB : ℕ := 210

def BUTTON_DEBOUNCE_MS : ℤ := 250

/-! ## ColorModel (lines 85-125) -/

/-- Python `int(x)`: truncation toward zero. -/
def pyInt (q : ℚ) : ℤ := if 0 ≤ q then q.floor else q.ceil

/-- Python `h % 1.0` on floats: remainder with the sign of the divisor,
so the result is `h - ⌊h⌋ ∈ [0, 1)`. -/
def pymod1 (h : ℚ) : ℚ := h - h.floor

/-- Embeds `hsv_to_rgb` (lines 85-115). `h`, `s`, `v` are intended in
`[0,1]`; result channels are truncated to integers in `[0,255]`. -/
def hsv_to_rgb (h s v : ℚ) : ℤ × ℤ × ℤ :=
  if s ≤ 0 then
    let val := pyInt (v * 255)
    (val, val, val)
  else
    let h1 := pymod1 h
    let i0 : ℤ := pyInt (h1 * 6)
    let f : ℚ := h1 * 6 - i0
    let p := v * (1 - s)
    let q := v * (1 - s * f)
    let t := v * (1 - s * (1 - f))
    let i := i0 % 6
    let rgb : ℚ × ℚ × ℚ :=
      if i = 0 then (v, t, p)
      else if i = 1 then (q, v, p)
      else if i = 2 then (p, v, t)
      else if i = 3 then (p, q, v)
      else if i = 4 then (t, p, v)
      else (v, p, q)
    (pyInt (rgb.1 * 255), pyInt (rgb.2.1 * 255), pyInt (rgb.2.2 * 255))

/-- Python `round(x)` (banker's rounding, ties to even), used to state the
spec's testable property about the monochrome fast path. -/
def pyRound (q : ℚ) : ℤ :=
  let fl := q.floor
  let r := q - fl
  if r < 1 / 2 then fl
  else if 1 / 2 < r then fl + 1
  else if fl % 2 = 0 then fl else fl + 1

/-- Embeds `lerp(a, b, t)` (lines 123-125): `int(a + (b - a) * t)`. -/
def lerp (a b : ℤ) (t : ℚ) : ℤ := pyInt ((a : ℚ) + ((b : ℚ) - (a : ℚ)) * t)

/-! ## Phase dynamics (trigger + per-pixel advance), shared by modes 1-3

Modes 1, 2 and 3 update their phase arrays identically up to the choice of
the constants `STEPS` and `PROB` (mode 2 reuses mode 1's constants, lines
257-262). The colour computation reads, but never influences, the phases. -/

/-- Embeds the trigger step (lines 204-207 / 257-260 / 319-322):
if `r8 < prob`, pick `idx = r16 % N`; a pixel whose phase is `0` is set to
`1`, a busy pixel drops the trigger. -/
def triggerStep (prob N r8 r16 : ℕ) (ph : List ℤ) : List ℤ :=
  if r8 < prob then
    let idx := r16 % N
    if ph.getD idx 0 = 0 then ph.set idx 1 else ph
  else ph

/-- Checked variant of `triggerStep`: Python raises `IndexError` when
`idx` is out of bounds of `ph`; that error branch is `none`. -/
def triggerStepChecked (prob N r8 r16 : ℕ) (ph : List ℤ) : Option (List ℤ) :=
  if r8 < prob then
    let idx := r16 % N
    match ph.get? idx with
    | none => none
    | some pv => some (if pv = 0 then ph.set idx 1 else ph)
  else some ph

/-- Per-pixel phase advance inside the render loop (lines 234-236 /
299-301 / 343-345): an idle pixel stays idle; an active pixel increments,
wrapping to `0` once the incremented phase exceeds `steps`. -/
def phaseAdvance (steps p : ℤ) : ℤ :=
  if p = 0 then 0
  else if p + 1 > steps then 0 else p + 1

/-- Phase component of one full per-frame update of modes 1-3: the trigger
step followed by the render loop's per-pixel advance. -/
def framePhases (steps : ℤ) (prob N r8 r16 : ℕ) (ph : List ℤ) : List ℤ :=
  (triggerStep prob N r8 r16 ph).map (phaseAdvance steps)

/-- Phase component of `update_mode1` (lines 197-243). -/
def update_mode1_phases (N r8 r16 : ℕ) (ph : List ℤ) : List ℤ :=
  framePhases MODE1_SPARKLE_STEPS MODE1_SPARKLE_PROB N r8 r16 ph

/-- Phase component of `update_mode2` (lines 246-307); it reuses mode 1's
`STEPS` and `PROB` constants. -/
def update_mode2_phases (N r8 r16 : ℕ) (ph : List ℤ) : List ℤ :=
  framePhases MODE1_SPARKLE_STEPS MODE1_SPARKLE_PROB N r8 r16 ph

/-- Phase component of `update_mode3` (lines 310-352). -/
def update_mode3_phases (N r8 r16 : ℕ) (ph : List ℤ) : List ℤ :=
  framePhases MODE3_TWINKLE_STEPS MODE3_TWINKLE_PROB N r8 r16 ph

/-- Runs a sequence of per-frame updates from a phase array, one pair of
random draws per frame. -/
def runPhases (steps : ℤ) (prob N : ℕ) (rs : List (ℕ × ℕ)) (ph : List ℤ) :
    List ℤ :=
  rs.foldl (fun a r => framePhases steps prob N r.1 r.2 a) ph

/-! ## Mode 1 full per-frame update (lines 197-243), colours included -/

/-- Per-mode mutable state of mode 1: the per-pixel base hues, the sparkle
phase array, and the NeoPixel frame buffer `np`. -/
structure Mode1State where
  base_hue_mode1 : List ℚ
  sparkle_phase : List ℤ
  np : List (ℤ × ℤ × ℤ)
  deriving DecidableEq

/-- Body of `update_mode1`'s render loop for one pixel (lines 211-241),
returning the new phase and the colour written to `np[i]`.
`sh` abstracts the float expression `u ** 1.5`. -/
def mode1Pixel (sh : ℚ → ℚ) (hue : ℚ) (phase : ℤ) : ℤ × (ℤ × ℤ × ℤ) :=
  if phase = 0 then
    (0, hsv_to_rgb hue 1 MODE1_BASE_V)
  else
    let half : ℤ := MODE1_SPARKLE_STEPS / 2
    let u : ℚ :=
      if phase ≤ half then (phase : ℚ) / (half : ℚ)
      else ((MODE1_SPARKLE_STEPS : ℚ) - (phase : ℚ)) / (half : ℚ)
    let u := max 0 (min 1 u)
    let u := sh u
    let s : ℚ := 1 - u
    let v : ℚ := MODE1_BASE_V + (MODE1_SPARKLE_V - MODE1_BASE_V) * u
    if phase + 1 > MODE1_SPARKLE_STEPS then
      (0, hsv_to_rgb hue 1 MODE1_BASE_V)
    else
      (phase + 1, hsv_to_rgb hue s v)

/-- Embeds `update_mode1` (lines 197-243): trigger step, then the render
loop computing each pixel's colour and advancing its phase, the frame
buffer being rewritten wholesale. -/
def update_mode1 (N : ℕ) (sh : ℚ → ℚ) (r8 r16 : ℕ) (st : Mode1State) :
    Mode1State :=
  let ph := triggerStep MODE1_SPARKLE_PROB N r8 r16 st.sparkle_phase
  let results := List.zipWith (mode1Pixel sh) st.base_hue_mode1 ph
  { base_hue_mode1 := st.base_hue_mode1
    sparkle_phase := results.map Prod.fst
    np := results.map Prod.snd }

/-- Runs a sequence of `update_mode1` frames. -/
def runMode1 (N : ℕ) (sh : ℚ → ℚ) (rs : List (ℕ × ℕ)) (st : Mode1State) :
    Mode1State :=
  rs.foldl (fun a r => update_mode1 N sh r.1 r.2 a) st

/-! ## Mode 4 update (lines 355-362) -/

/-- Embeds `update_mode4`: `for i in range(NUM_LEDS): np[i] = (0,0,0)`,
then flush. The returned buffer is exactly what the single `np.write()`
flushes. -/
def update_mode4 (N : ℕ) (np : List (ℤ × ℤ × ℤ)) : List (ℤ × ℤ × ℤ) :=
  (List.range N).foldl (fun buf i => buf.set i (0, 0, 0)) np

/-! ## InputController (lines 366-390) -/

/-- Mode-cycling order 1 → 2 → 3 → 4 → 1 of `check_button`. -/
def nextMode (m : ℤ) : ℤ :=
  if m = 1 then 2 else if m = 2 then 3 else if m = 3 then 4 else 1

/-- State read and written by `check_button`: the active mode and the time
of the last accepted transition. -/
structure ButtonState where
  current_mode : ℤ
  last_button_time : ℤ
  deriving DecidableEq

/-- Embeds `check_button` (lines 366-390): on each poll, if the button
reads pressed (active low) and more than `BUTTON_DEBOUNCE_MS` have passed
since the last accepted transition, advance the mode cyclically and record
the poll time. Level-triggered: no edge detection appears in the source.
The `init_modeX` side effects on the frame buffer are not needed by any
claim about transitions and are omitted here. -/
def check_button (st : ButtonState) (now : ℤ) (pressed : Bool) :
    ButtonState :=
  if pressed then
    if now - st.last_button_time > BUTTON_DEBOUNCE_MS then
      { current_mode := nextMode st.current_mode, last_button_time := now }
    else st
  else st

/-- Runs a sequence of button polls `(now, pressed)`. -/
def runButtons (st : ButtonState) (polls : List (ℤ × Bool)) : ButtonState :=
  polls.foldl (fun a p => check_button a p.1 p.2) st

/-! ## main startup (lines 394-419) -/

/-- Embeds the startup path of `main` (lines 394-419) as a function of the
envelope length and trigger probability constants: `main` calls
`init_mode1()` and enters `while True` unconditionally — the source
contains no validation of any configuration constant, so this function is
constantly `true` (the frame loop always begins). -/
def mainBeginsFrameLoop (steps : ℤ) (prob : ℕ) : Bool :=
  true

/-! ## List helper lemmas -/

theorem getD_set_self (l : List ℤ) (i : ℕ) (a : ℤ) (h : i < l.length) :
    (l.set i a).getD i 0 = a := by
  rw [List.getD_eq_getElem _ _ (by simpa using h)]
  simp [List.getElem_set, h]

theorem getD_set_ne (l : List ℤ) (i j : ℕ) (a : ℤ) (h : i ≠ j) :
    (l.set i a).getD j 0 = l.getD j 0 := by
  by_cases hj : j < l.length
  · rw [List.getD_eq_getElem _ _ (by simpa using hj), List.getD_eq_getElem _ _ hj]
    simp [List.getElem_set, h]
  · rw [List.getD_eq_default _ _ (by simpa using Nat.le_of_not_lt hj),
      List.getD_eq_default _ _ (Nat.le_of_not_lt hj)]

theorem getD_map_phaseAdvance (steps : ℤ) (l : List ℤ) (i : ℕ) :
    (l.map (phaseAdvance steps)).getD i 0 = phaseAdvance steps (l.getD i 0) := by
  by_cases hi : i < l.length
  · rw [List.getD_eq_getElem _ _ (by simpa using hi), List.getD_eq_getElem _ _ hi]
    simp
  · rw [List.getD_eq_default _ _ (by simpa using Nat.le_of_not_lt hi),
      List.getD_eq_default _ _ (Nat.le_of_not_lt hi)]
    simp [phaseAdvance]

theorem triggerStep_getD_cases (prob N r8 r16 : ℕ) (ph : List ℤ) (i : ℕ) :
    (triggerStep prob N r8 r16 ph).getD i 0 = ph.getD i 0 ∨
      ((triggerStep prob N r8 r16 ph).getD i 0 = 1 ∧ i = r16 % N ∧
        ph.getD i 0 = 0) := by
  unfold triggerStep
  dsimp only
  split
  · split
    · rename_i htrig hzero
      by_cases hi : i = r16 % N
      · by_cases hlen : i < ph.length
        · exact Or.inr ⟨hi ▸ getD_set_self ph (r16 % N) 1 (hi ▸ hlen), hi,
            hi ▸ hzero⟩
        · left
          rw [hi, List.getD_eq_default _ _
              (by simpa using Nat.le_of_not_lt (hi ▸ hlen)),
            List.getD_eq_default _ _ (Nat.le_of_not_lt (hi ▸ hlen))]
      · exact Or.inl (getD_set_ne ph (r16 % N) i 1 (fun hh => hi hh.symm))
    · exact Or.inl rfl
  · exact Or.inl rfl

theorem triggerStep_length (prob N r8 r16 : ℕ) (ph : List ℤ) :
    (triggerStep prob N r8 r16 ph).length = ph.length := by
  unfold triggerStep
  dsimp only
  split
  · split <;> simp
  · rfl

theorem framePhases_length (steps : ℤ) (prob N r8 r16 : ℕ) (ph : List ℤ) :
    (framePhases steps prob N r8 r16 ph).length = ph.length := by
  unfold framePhases
  rw [List.length_map, triggerStep_length]

theorem framePhases_getD (steps : ℤ) (prob N r8 r16 : ℕ) (ph : List ℤ)
    (i : ℕ) :
    (framePhases steps prob N r8 r16 ph).getD i 0 =
      phaseAdvance steps ((triggerStep prob N r8 r16 ph).getD i 0) :=
  getD_map_phaseAdvance steps _ i

/-! ## ColorModel properties (claims C6, C7) -/

theorem pymod1_add_one (h : ℚ) : pymod1 (h + 1) = pymod1 h := by
  have e : ∀ q : ℚ, pymod1 q = Int.fract q := fun q => rfl
  rw [e, e, Int.fract_add_one]

/-- C6: for every `h` and every `v` in `[0,1]`, `hsv_to_rgb h 1 v` and
`hsv_to_rgb (h+1) 1 v` return the same `(r,g,b)` triple: the hue is
wrapped by `h % 1.0` before use. -/
theorem hsv_to_rgb_hue_wraps (h v : ℚ) (hv0 : 0 ≤ v) (hv1 : v ≤ 1) :
    hsv_to_rgb h 1 v = hsv_to_rgb (h + 1) 1 v := by
  simp only [hsv_to_rgb, pymod1_add_one]

theorem hsv_to_rgb_hue_wraps_witness :
    (0 : ℚ) ≤ 1/2 ∧ (1 : ℚ)/2 ≤ 1 ∧
      hsv_to_rgb (1/3) 1 (1/2) = hsv_to_rgb (1/3 + 1) 1 (1/2) :=
  ⟨by decide, by decide,
    hsv_to_rgb_hue_wraps (1/3) (1/2) (by decide) (by decide)⟩

/-- C7 counterexample: at `h = 0`, `v = 9/10 ∈ [0,1]`, the monochrome fast
path returns `int(v*255) = 229` on each channel, not
`round(v*255) = 230`: the claim's `round` is wrong, the code truncates. -/
theorem hsv_monochrome_round_ctrex :
    (0 : ℚ) ≤ 9/10 ∧ (9 : ℚ)/10 ≤ 1 ∧
      hsv_to_rgb 0 0 (9/10) ≠
        (pyRound ((9/10 : ℚ) * 255), pyRound ((9/10 : ℚ) * 255),
          pyRound ((9/10 : ℚ) * 255)) := by
  decide

/-- C7 amended: for every `h` and every `v` in `[0,1]`,
`hsv_to_rgb h 0 v` returns `int(v*255)` — truncation toward zero, as the
spec's section 4.1 itself states — replicated on all three channels,
independent of `h`. -/
theorem hsv_monochrome_truncates (h v : ℚ) (hv0 : 0 ≤ v) (hv1 : v ≤ 1) :
    hsv_to_rgb h 0 v = (pyInt (v * 255), pyInt (v * 255), pyInt (v * 255)) :=
  rfl

theorem hsv_monochrome_truncates_witness :
    (0 : ℚ) ≤ 9/10 ∧ (9 : ℚ)/10 ≤ 1 ∧
      hsv_to_rgb 17 0 (9/10) =
        (pyInt ((9/10 : ℚ) * 255), pyInt ((9/10 : ℚ) * 255),
          pyInt ((9/10 : ℚ) * 255)) :=
  ⟨by decide, by decide, hsv_monochrome_truncates 17 (9/10) (by decide) (by decide)⟩

/-! ## Trigger-step properties (claims C2, C8, C10) -/

/-- C2: in one per-frame update of any of modes 1-3 (any `steps`/`prob`
constants), only the single randomly drawn index `r16 % N` can change from
idle (`0`) to active: every other pixel that was idle is still idle after
the frame, for any strip length `N` — the update makes one trigger draw
per frame, not one per pixel. -/
theorem at_most_one_trigger_per_frame (steps : ℤ) (prob N r8 r16 : ℕ)
    (ph : List ℤ) (i : ℕ) (hne : i ≠ r16 % N) (h0 : ph.getD i 0 = 0) :
    (framePhases steps prob N r8 r16 ph).getD i 0 = 0 := by
  rw [framePhases_getD]
  rcases triggerStep_getD_cases prob N r8 r16 ph i with hc | ⟨_, hidx, _⟩
  · rw [hc, h0]
    simp [phaseAdvance]
  · exact absurd hidx hne

theorem at_most_one_trigger_per_frame_witness :
    (1 : ℕ) ≠ 0 % 4 ∧ ([0, 0, 0, 0] : List ℤ).getD 1 0 = 0 ∧
      (framePhases 22 40 4 0 0 [0, 0, 0, 0]).getD 1 0 = 0 :=
  ⟨by decide, by decide,
    at_most_one_trigger_per_frame 22 40 4 0 0 [0, 0, 0, 0] 1 (by decide)
      (by decide)⟩

/-- C8: the trigger step of every mode's update drops the trigger when the
chosen pixel `r16 % N` is already active (`phase > 0`), leaving the whole
phase array unchanged; it never modifies any entry other than the chosen
pixel; and the only change it can make is setting the chosen pixel's
phase from `0` to `1` — so at most one envelope occupies a pixel at a
time. -/
theorem trigger_busy_dropped (prob N r8 r16 : ℕ) (ph : List ℤ) :
    (ph.getD (r16 % N) 0 ≠ 0 → triggerStep prob N r8 r16 ph = ph) ∧
    (∀ i, i ≠ r16 % N →
      (triggerStep prob N r8 r16 ph).getD i 0 = ph.getD i 0) ∧
    (triggerStep prob N r8 r16 ph = ph ∨
      (ph.getD (r16 % N) 0 = 0 ∧
        triggerStep prob N r8 r16 ph = ph.set (r16 % N) 1)) := by
  refine ⟨?_, ?_, ?_⟩
  · intro hbusy
    unfold triggerStep
    dsimp only
    by_cases hr : r8 < prob
    · rw [if_pos hr, if_neg hbusy]
    · rw [if_neg hr]
  · intro i hi
    rcases triggerStep_getD_cases prob N r8 r16 ph i with hc | ⟨_, hidx, _⟩
    · exact hc
    · exact absurd hidx hi
  · unfold triggerStep
    dsimp only
    by_cases hr : r8 < prob
    · by_cases h0 : ph.getD (r16 % N) 0 = 0
      · exact Or.inr ⟨h0, by rw [if_pos hr, if_pos h0]⟩
      · exact Or.inl (by rw [if_pos hr, if_neg h0])
    · exact Or.inl (by rw [if_neg hr])

theorem trigger_busy_dropped_witness :
    ([0, 5] : List ℤ).getD (1 % 2) 0 ≠ 0 ∧
      triggerStep 40 2 0 1 [0, 5] = [0, 5] :=
  ⟨by decide, (trigger_busy_dropped 40 2 0 1 [0, 5]).1 (by decide)⟩

/-- C10: with `N > 0` and a phase array of length `N`, the randomly drawn
trigger index `r16 % N` lies in `[0, N)`, the checked trigger step (whose
`none` branch is Python's `IndexError`) never takes its error branch and
agrees with the total model, and the per-frame update preserves the array
length `N`, so no access is out of bounds. -/
theorem update_index_in_bounds (steps : ℤ) (prob N r8 r16 : ℕ)
    (ph : List ℤ) (hN : 0 < N) (hlen : ph.length = N) :
    r16 % N < N ∧
    triggerStepChecked prob N r8 r16 ph =
      some (triggerStep prob N r8 r16 ph) ∧
    (framePhases steps prob N r8 r16 ph).length = N := by
  have hidx : r16 % N < N := Nat.mod_lt _ hN
  refine ⟨hidx, ?_, by rw [framePhases_length, hlen]⟩
  unfold triggerStepChecked triggerStep
  dsimp only
  split
  · have hlt : r16 % N < ph.length := by rw [hlen]; exact hidx
    have hget : ph.get? (r16 % N) = some (ph.getD (r16 % N) 0) := by
      rw [List.get?_eq_getElem?, List.getElem?_eq_getElem hlt,
        List.getD_eq_getElem _ _ hlt]
    rw [hget]
  · rfl

theorem update_index_in_bounds_witness :
    0 < 3 ∧ ([0, 7, 0] : List ℤ).length = 3 ∧
      (5 % 3 < 3 ∧
        triggerStepChecked 40 3 0 5 [0, 7, 0] =
          some (triggerStep 40 3 0 5 [0, 7, 0]) ∧
        (framePhases 22 40 3 0 5 [0, 7, 0]).length = 3) :=
  ⟨by decide, by decide,
    update_index_in_bounds 22 40 3 0 5 [0, 7, 0] (by decide) (by decide)⟩

/-! ## InputController properties (claim C3) -/

/-- C3 counterexample: `check_button` is level-triggered, not
edge-triggered. With the button held pressed continuously (no release
between polls, hence no falling edge at the second poll), polls at
1000 ms and 1300 ms both transition: mode goes 1 → 2 → 3, more than one
transition while held. -/
theorem check_button_held_cycles :
    (runButtons ⟨1, 0⟩ [(1000, true)]).current_mode = 2 ∧
    (runButtons ⟨1, 0⟩ [(1000, true), (1300, true)]).current_mode = 3 := by
  decide

/-- C3 amended: `check_button` produces a mode change only when the button
reads pressed and more than `BUTTON_DEBOUNCE_MS` have elapsed since the
last accepted transition (level-triggered, the accepted poll's time being
recorded); any poll within the debounce window of the last accepted
transition changes nothing — so bounce within the window produces no
transition, and a held button produces at most one transition per
debounce window, but a button held longer keeps cycling modes. -/
theorem check_button_level_debounce (st : ButtonState) (now : ℤ)
    (pressed : Bool) :
    (check_button st now pressed ≠ st →
      pressed = true ∧ now - st.last_button_time > BUTTON_DEBOUNCE_MS ∧
      check_button st now pressed = ⟨nextMode st.current_mode, now⟩) ∧
    (now - st.last_button_time ≤ BUTTON_DEBOUNCE_MS →
      check_button st now pressed = st) ∧
    (pressed = false → check_button st now pressed = st) := by
  unfold check_button
  cases pressed with
  | false =>
    refine ⟨fun hne => absurd rfl hne, fun _ => rfl, fun _ => rfl⟩
  | true =>
    by_cases hd : now - st.last_button_time > BUTTON_DEBOUNCE_MS
    · refine ⟨fun _ => ⟨rfl, hd, by rw [if_pos rfl, if_pos hd]⟩,
        fun hle => absurd hd (not_lt.2 hle), fun hfalse => by cases hfalse⟩
    · have he : (if (true = true) then
          (if now - st.last_button_time > BUTTON_DEBOUNCE_MS then
            ({ current_mode := nextMode st.current_mode,
               last_button_time := now } : ButtonState)
          else st) else st) = st := by
        rw [if_pos rfl, if_neg hd]
      refine ⟨fun hne => absurd he hne, fun _ => he, fun _ => he⟩

theorem check_button_level_debounce_witness :
    (100 : ℤ) - (⟨1, 0⟩ : ButtonState).last_button_time ≤
        BUTTON_DEBOUNCE_MS ∧
      check_button ⟨1, 0⟩ 100 true = ⟨1, 0⟩ :=
  ⟨by decide, (check_button_level_debounce ⟨1, 0⟩ 100 true).2.1 (by decide)⟩

/-! ## Configuration validation (claim C9) -/

/-- C9 counterexample: nothing rejects a malformed configuration. With
`STEPS = 0 ≤ 0` and a trigger probability of `300` outside the `[0,255]`
scale, the frame loop still begins, and the invalid probability is
consulted by the per-frame trigger step, where it fires a trigger
(`255 < 300`). -/
theorem config_validation_ctrex :
    mainBeginsFrameLoop 0 300 = true ∧
    triggerStep 300 1 255 0 [0] = [1] := by
  decide

/-- C9 amended: the source performs no validation of the configuration
constants at all — `main` begins the frame loop whatever the constants
are, and updates consult them as-is; the shipped constants merely happen
to be well-formed (`STEPS > 0`, probabilities within the `[0,255]`
scale). -/
theorem config_unvalidated (steps : ℤ) (prob : ℕ) :
    mainBeginsFrameLoop steps prob = true ∧
    0 < MODE1_SPARKLE_STEPS ∧ MODE1_SPARKLE_PROB ≤ 255 ∧
    0 < MODE3_TWINKLE_STEPS ∧ MODE3_TWINKLE_PROB ≤ 255 :=
  ⟨rfl, by decide, by decide, by decide, by decide⟩

/-! ## Phase invariant (claim C1) -/

theorem phaseAdvance_bounds (steps p : ℤ) (hs : 0 ≤ steps)
    (hp : (0 ≤ p ∧ p ≤ steps) ∨ p = 1) :
    0 ≤ phaseAdvance steps p ∧ phaseAdvance steps p ≤ steps := by
  unfold phaseAdvance
  split
  · omega
  · split <;> omega

theorem framePhases_inv (steps : ℤ) (prob N r8 r16 : ℕ) (ph : List ℤ)
    (hs : 0 ≤ steps)
    (hph : ∀ i, 0 ≤ ph.getD i 0 ∧ ph.getD i 0 ≤ steps) (i : ℕ) :
    0 ≤ (framePhases steps prob N r8 r16 ph).getD i 0 ∧
      (framePhases steps prob N r8 r16 ph).getD i 0 ≤ steps := by
  rw [framePhases_getD]
  rcases triggerStep_getD_cases prob N r8 r16 ph i with hc | ⟨h1, _, _⟩
  · exact phaseAdvance_bounds steps _ hs (Or.inl (by rw [hc]; exact hph i))
  · exact phaseAdvance_bounds steps _ hs (Or.inr h1)

theorem runPhases_inv (steps : ℤ) (prob N : ℕ) (hs : 0 ≤ steps) :
    ∀ (rs : List (ℕ × ℕ)) (ph : List ℤ),
      (∀ i, 0 ≤ ph.getD i 0 ∧ ph.getD i 0 ≤ steps) →
      ∀ i, 0 ≤ (runPhases steps prob N rs ph).getD i 0 ∧
        (runPhases steps prob N rs ph).getD i 0 ≤ steps := by
  intro rs
  induction rs with
  | nil => intro ph hph i; exact hph i
  | cons r rs ih =>
    intro ph hph i
    exact ih (framePhases steps prob N r.1 r.2 ph)
      (framePhases_inv steps prob N r.1 r.2 ph hs hph) i

theorem framePhases_wrap (steps : ℤ) (prob N r8 r16 : ℕ) (ph : List ℤ)
    (hs : 0 ≤ steps) (i : ℕ) (hi : ph.getD i 0 = steps) :
    (framePhases steps prob N r8 r16 ph).getD i 0 = 0 := by
  rw [framePhases_getD]
  rcases triggerStep_getD_cases prob N r8 r16 ph i with hc | ⟨h1, _, h00⟩
  · rw [hc, hi]
    unfold phaseAdvance
    split
    · rfl
    · split
      · rfl
      · omega
  · rw [h1]
    unfold phaseAdvance
    split
    · omega
    · split
      · rfl
      · rw [hi] at h00
        omega

/-- C1: for every mode (any envelope length `steps ≥ 0`, any trigger
probability, any strip length `N`), starting from the mode's init state
(all phases zero) and running any sequence of per-frame updates with any
random draws, every pixel's phase lies in `[0, steps]` at every frame
boundary — never negative, never above `steps` — and a pixel whose phase
has reached `steps` wraps to exactly `0` on the next frame, whatever that
frame's draws are. -/
theorem phase_bounds_invariant (steps : ℤ) (prob N : ℕ)
    (hsteps : 0 ≤ steps) (rs : List (ℕ × ℕ)) :
    (∀ i, 0 ≤ (runPhases steps prob N rs (List.replicate N 0)).getD i 0 ∧
      (runPhases steps prob N rs (List.replicate N 0)).getD i 0 ≤ steps) ∧
    (∀ i r8 r16,
      (runPhases steps prob N rs (List.replicate N 0)).getD i 0 = steps →
      (framePhases steps prob N r8 r16
        (runPhases steps prob N rs (List.replicate N 0))).getD i 0 = 0) := by
  have hinit : ∀ i, 0 ≤ (List.replicate N (0 : ℤ)).getD i 0 ∧
      (List.replicate N (0 : ℤ)).getD i 0 ≤ steps := by
    intro i
    have hz : (List.replicate N (0 : ℤ)).getD i 0 = 0 := by
      by_cases hi : i < N
      · rw [List.getD_eq_getElem _ _ (by simpa using hi)]
        simp
      · rw [List.getD_eq_default _ _ (by simpa using Nat.le_of_not_lt hi)]
    rw [hz]
    exact ⟨le_refl _, hsteps⟩
  refine ⟨runPhases_inv steps prob N hsteps rs _ hinit, ?_⟩
  intro i r8 r16 hhit
  exact framePhases_wrap steps prob N r8 r16 _ hsteps i hhit

theorem phase_bounds_invariant_witness :
    (0 : ℤ) ≤ 22 ∧
      (0 ≤ (runPhases 22 40 3 [(0, 0), (255, 1)]
          (List.replicate 3 0)).getD 0 0 ∧
        (runPhases 22 40 3 [(0, 0), (255, 1)]
          (List.replicate 3 0)).getD 0 0 ≤ 22) :=
  ⟨by decide,
    (phase_bounds_invariant 22 40 3 (by decide) [(0, 0), (255, 1)]).1 0⟩

/-! ## Mode 4 renders all black (claim C5) -/

theorem update_mode4_fold (N : ℕ) :
    ∀ np : List (ℤ × ℤ × ℤ), N ≤ np.length →
      update_mode4 N np =
        List.replicate N ((0 : ℤ), (0 : ℤ), (0 : ℤ)) ++ np.drop N := by
  induction N with
  | zero => intro np _; simp [update_mode4]
  | succ n ih =>
    intro np h
    have hn : n ≤ np.length := Nat.le_of_succ_le h
    have hstep : update_mode4 (n + 1) np =
        (update_mode4 n np).set n (0, 0, 0) := by
      unfold update_mode4
      rw [List.range_succ, List.foldl_append]
      rfl
    have hd := List.drop_eq_getElem_cons (show n < np.length by omega)
    rw [hstep, ih np hn,
      List.set_append_right _ _ (by simp), hd]
    simp [List.replicate_succ']
    rw [hd]
    rfl

/-- C5: `update_mode4`, run from any frame-buffer contents (it reads no
phase or base-colour state at all), writes black `(0,0,0)` to every one of
the `N` pixels; the flushed buffer is `replicate N (0,0,0)` regardless of
what was there before. -/
theorem update_mode4_all_black (N : ℕ) (np : List (ℤ × ℤ × ℤ))
    (hlen : np.length = N) :
    update_mode4 N np = List.replicate N (0, 0, 0) := by
  have hfold := update_mode4_fold N np (le_of_eq hlen.symm)
  rwa [List.drop_eq_nil_of_le (le_of_eq hlen), List.append_nil] at hfold

theorem update_mode4_all_black_witness :
    ([(1, 2, 3), (4, 5, 6), (7, 8, 9)] : List (ℤ × ℤ × ℤ)).length = 3 ∧
      update_mode4 3 [(1, 2, 3), (4, 5, 6), (7, 8, 9)] =
        List.replicate 3 (0, 0, 0) :=
  ⟨by decide, update_mode4_all_black 3 _ (by decide)⟩

/-! ## Mode 1 sparkle lifecycle (claim C4) -/

theorem mode1Pixel_fst_mid (sh : ℚ → ℚ) (hue : ℚ) (p : ℤ)
    (h1 : 1 ≤ p) (h2 : p ≤ 21) : (mode1Pixel sh hue p).1 = p + 1 := by
  unfold mode1Pixel
  rw [if_neg (by omega : ¬ p = 0)]
  dsimp only
  rw [if_neg (show ¬ p + 1 > MODE1_SPARKLE_STEPS by
    unfold MODE1_SPARKLE_STEPS; omega)]

theorem mode1Pixel_wrap (sh : ℚ → ℚ) (hue : ℚ) :
    mode1Pixel sh hue 22 = (0, hsv_to_rgb hue 1 MODE1_BASE_V) := by
  unfold mode1Pixel
  rw [if_neg (by omega : ¬ (22 : ℤ) = 0)]
  dsimp only
  rw [if_pos (show (22 : ℤ) + 1 > MODE1_SPARKLE_STEPS by
    unfold MODE1_SPARKLE_STEPS; omega)]

theorem update_mode1_phase_length (N : ℕ) (sh : ℚ → ℚ) (r8 r16 : ℕ)
    (st : Mode1State) (hh : st.base_hue_mode1.length = N)
    (hp : st.sparkle_phase.length = N) :
    (update_mode1 N sh r8 r16 st).sparkle_phase.length = N := by
  unfold update_mode1
  dsimp only
  rw [List.length_map, List.length_zipWith, triggerStep_length, hh, hp,
    min_self]

theorem update_mode1_phase_getD (N : ℕ) (sh : ℚ → ℚ) (r8 r16 : ℕ)
    (st : Mode1State) (i : ℕ) (hh : st.base_hue_mode1.length = N)
    (hp : st.sparkle_phase.length = N) (hi : i < N) :
    (update_mode1 N sh r8 r16 st).sparkle_phase.getD i 0 =
      (mode1Pixel sh (st.base_hue_mode1.getD i 0)
        ((triggerStep MODE1_SPARKLE_PROB N r8 r16
          st.sparkle_phase).getD i 0)).1 := by
  have htl : (triggerStep MODE1_SPARKLE_PROB N r8 r16
      st.sparkle_phase).length = N := by
    rw [triggerStep_length, hp]
  have hzl : (List.zipWith (mode1Pixel sh) st.base_hue_mode1
      (triggerStep MODE1_SPARKLE_PROB N r8 r16
        st.sparkle_phase)).length = N := by
    rw [List.length_zipWith, hh, htl, min_self]
  unfold update_mode1
  dsimp only
  rw [List.getD_eq_getElem _ _ (by rw [List.length_map, hzl]; exact hi),
    List.getElem_map, List.getElem_zipWith,
    List.getD_eq_getElem st.base_hue_mode1 0 (by rw [hh]; exact hi),
    List.getD_eq_getElem _ 0 (by rw [htl]; exact hi)]

theorem update_mode1_np_getD (N : ℕ) (sh : ℚ → ℚ) (r8 r16 : ℕ)
    (st : Mode1State) (i : ℕ) (hh : st.base_hue_mode1.length = N)
    (hp : st.sparkle_phase.length = N) (hi : i < N) :
    (update_mode1 N sh r8 r16 st).np.getD i (0, 0, 0) =
      (mode1Pixel sh (st.base_hue_mode1.getD i 0)
        ((triggerStep MODE1_SPARKLE_PROB N r8 r16
          st.sparkle_phase).getD i 0)).2 := by
  have htl : (triggerStep MODE1_SPARKLE_PROB N r8 r16
      st.sparkle_phase).length = N := by
    rw [triggerStep_length, hp]
  have hzl : (List.zipWith (mode1Pixel sh) st.base_hue_mode1
      (triggerStep MODE1_SPARKLE_PROB N r8 r16
        st.sparkle_phase)).length = N := by
    rw [List.length_zipWith, hh, htl, min_self]
  unfold update_mode1
  dsimp only
  rw [List.getD_eq_getElem _ _ (by rw [List.length_map, hzl]; exact hi),
    List.getElem_map, List.getElem_zipWith,
    List.getD_eq_getElem st.base_hue_mode1 0 (by rw [hh]; exact hi),
    List.getD_eq_getElem _ 0 (by rw [htl]; exact hi)]

theorem runMode1_completes (sh : ℚ → ℚ) (hues : List ℚ)
    (hh : hues.length = 16) :
    ∀ (rs : List (ℕ × ℕ)) (p : ℤ) (st : Mode1State),
      st.base_hue_mode1 = hues →
      st.sparkle_phase.length = 16 →
      st.sparkle_phase.getD 5 0 = p →
      1 ≤ p → p ≤ 22 → p + rs.length = 23 →
      (runMode1 16 sh rs st).sparkle_phase.getD 5 0 = 0 ∧
      (runMode1 16 sh rs st).np.getD 5 (0, 0, 0) =
        hsv_to_rgb (hues.getD 5 0) 1 MODE1_BASE_V := by
  intro rs
  induction rs with
  | nil =>
    intro p st _ _ _ h1 h22 hsum
    simp only [List.length_nil, Nat.cast_zero, add_zero] at hsum
    exact (by omega : False).elim
  | cons r rs ih =>
    intro p st hhue hplen hp5 h1 h22 hsum
    have hhl : st.base_hue_mode1.length = 16 := by rw [hhue, hh]
    have hupd_hue : (update_mode1 16 sh r.1 r.2 st).base_hue_mode1 = hues :=
      by rw [← hhue]; rfl
    have hupd_len :
        (update_mode1 16 sh r.1 r.2 st).sparkle_phase.length = 16 :=
      update_mode1_phase_length 16 sh r.1 r.2 st hhl hplen
    have htrig5 : (triggerStep MODE1_SPARKLE_PROB 16 r.1 r.2
        st.sparkle_phase).getD 5 0 = p := by
      rcases triggerStep_getD_cases MODE1_SPARKLE_PROB 16 r.1 r.2
          st.sparkle_phase 5 with hc | ⟨_, _, h00⟩
      · rw [hc, hp5]
      · rw [hp5] at h00
        exact (by omega : False).elim
    have hupd5 : (update_mode1 16 sh r.1 r.2 st).sparkle_phase.getD 5 0 =
        (mode1Pixel sh (hues.getD 5 0) p).1 := by
      rw [update_mode1_phase_getD 16 sh r.1 r.2 st 5 hhl hplen
        (by omega), htrig5, hhue]
    have hrun : runMode1 16 sh (r :: rs) st =
        runMode1 16 sh rs (update_mode1 16 sh r.1 r.2 st) := rfl
    by_cases hple : p ≤ 21
    · have hstep : (mode1Pixel sh (hues.getD 5 0) p).1 = p + 1 :=
        mode1Pixel_fst_mid sh _ p h1 hple
      rw [hrun]
      refine ih (p + 1) (update_mode1 16 sh r.1 r.2 st) hupd_hue hupd_len
        (by rw [hupd5, hstep]) (by omega) (by omega) ?_
      have : ((r :: rs).length : ℤ) = (rs.length : ℤ) + 1 := by
        simp
      omega
    · have hp22 : p = 22 := by omega
      have hrs0 : rs.length = 0 := by
        have : ((r :: rs).length : ℤ) = (rs.length : ℤ) + 1 := by
          simp
        omega
      have hrsnil : rs = [] := List.eq_nil_of_length_eq_zero hrs0
      subst hrsnil
      rw [hrun]
      have hnp5 : (update_mode1 16 sh r.1 r.2 st).np.getD 5 (0, 0, 0) =
          (mode1Pixel sh (hues.getD 5 0) p).2 := by
        rw [update_mode1_np_getD 16 sh r.1 r.2 st 5 hhl hplen
          (by omega), htrig5, hhue]
      rw [hp22] at hupd5 hnp5
      rw [mode1Pixel_wrap sh (hues.getD 5 0)] at hupd5 hnp5
      exact ⟨hupd5, hnp5⟩

/-- C4: in mode 1 with `N = 16`, start from pixel 5's phase injected from
`0` to `1` (a trigger) and run 22 consecutive `update_mode1` frames whose
trigger draws never land on pixel 5 (triggers on other pixels allowed,
and the envelope shaping function is arbitrary): afterwards pixel 5's
phase reads `0` and the colour rendered for pixel 5 in the last update is
`hsv_to_rgb base_hue[5] 1 MODE1_BASE_V` — its original base-hue colour at
base brightness. -/
theorem mode1_sparkle_scenario (sh : ℚ → ℚ) (hues : List ℚ)
    (rs : List (ℕ × ℕ)) (hh : hues.length = 16) (hlen : rs.length = 22)
    (hnot : ∀ r ∈ rs, ¬(r.1 < MODE1_SPARKLE_PROB ∧ r.2 % 16 = 5)) :
    (runMode1 16 sh rs
        ⟨hues, (List.replicate 16 0).set 5 1,
          List.replicate 16 (0, 0, 0)⟩).sparkle_phase.getD 5 0 = 0 ∧
    (runMode1 16 sh rs
        ⟨hues, (List.replicate 16 0).set 5 1,
          List.replicate 16 (0, 0, 0)⟩).np.getD 5 (0, 0, 0) =
      hsv_to_rgb (hues.getD 5 0) 1 MODE1_BASE_V := by
  refine runMode1_completes sh hues hh rs 1 _ rfl ?_ ?_ ?_ ?_ ?_
  · simp
  · exact getD_set_self _ 5 1 (by simp)
  · omega
  · omega
  · rw [hlen]
    rfl

theorem mode1_sparkle_scenario_witness :
    (List.replicate 16 ((1 : ℚ)/3)).length = 16 ∧
    (List.replicate 22 ((255 : ℕ), (0 : ℕ))).length = 22 ∧
    ((runMode1 16 id (List.replicate 22 (255, 0))
        ⟨List.replicate 16 ((1 : ℚ)/3), (List.replicate 16 0).set 5 1,
          List.replicate 16 (0, 0, 0)⟩).sparkle_phase.getD 5 0 = 0 ∧
      (runMode1 16 id (List.replicate 22 (255, 0))
        ⟨List.replicate 16 ((1 : ℚ)/3), (List.replicate 16 0).set 5 1,
          List.replicate 16 (0, 0, 0)⟩).np.getD 5 (0, 0, 0) =
        hsv_to_rgb ((List.replicate 16 ((1 : ℚ)/3)).getD 5 0) 1
          MODE1_BASE_V) :=
  ⟨by decide, by decide,
    mode1_sparkle_scenario id _ _ (by decide) (by decide) (by decide)⟩
